import Mathlib

/-!
Verification development for the Task Manager Pro process-monitoring backend.

The definitions below are a shallow embedding of the two Python backends:

* `src/backend-v1-fastapi/main.py` — the sampling/aggregation service
  (`is_system_process`, `get_processes_fast`, `get_apps_grouped`);
* `src/backend/main.py` — the lifecycle-control service
  (`is_protected_process`, `kill_process`, `suspend_process`,
  `resume_process`).

Machine floats are modelled by exact rationals; Python's `round(x, 1)` is
modelled as decimal round-half-to-even at one fractional digit.  Python
exception flow is modelled with `Except`, with the handler clauses of each
`try`/`except` block translated in their source order.
-/

/-! ## String helpers (Python `str.lower`, `in`, `str.replace`) -/

/-- Lowercasing of a Python string, as `name.lower()` does (per character). -/
def lowerStr (s : String) : List Char :=
  s.data.map Char.toLower

/-- `listPre pat l` is true when `pat` is a leading segment of `l`
(the check behind Python's substring scan). -/
def listPre : List Char → List Char → Bool
  | [], _ => true
  | _ :: _, [] => false
  | p :: ps, c :: cs => p = c && listPre ps cs

/-- `containsSub pat l` decides Python's `pat in l` substring test. -/
def containsSub (pat : List Char) : List Char → Bool
  | [] => listPre pat []
  | c :: cs => listPre pat (c :: cs) || containsSub pat cs

/-- Python's `s.replace(pat, rep)`: scan left to right, replacing each
non-overlapping occurrence of the (non-empty) pattern `p0 :: ptail`.
`fuel` only drives the structural recursion; it never runs out when
initialised with the scanned list's length, because each step consumes at
least one character. -/
def replaceAllAux (p0 : Char) (ptail rep : List Char) :
    Nat → List Char → List Char
  | 0, l => l
  | _ + 1, [] => []
  | fuel + 1, c :: cs =>
    if p0 = c ∧ listPre ptail cs = true then
      rep ++ replaceAllAux p0 ptail rep fuel (cs.drop ptail.length)
    else
      c :: replaceAllAux p0 ptail rep fuel cs

/-- Python `s.replace(pat, rep)` on strings (empty pattern never occurs
in this code base, and is mapped to the identity). -/
def pyReplace (s pat rep : String) : String :=
  match pat.data with
  | [] => s
  | p0 :: ptail => ⟨replaceAllAux p0 ptail rep.data s.data.length s.data⟩

/-! ## Decimal rounding (Python `round(x, 1)`) -/

/-- Round a rational to the nearest integer, ties to even
(Python's `round` on exact decimal values). -/
def roundHalfEven (q : ℚ) : ℤ :=
  let f : ℤ := ⌊q⌋
  if q - f < 1 / 2 then f
  else if 1 / 2 < q - f then f + 1
  else if f % 2 = 0 then f else f + 1

/-- Python `round(x, 1)` on the exact-rational model of floats. -/
def pyRound1 (q : ℚ) : ℚ :=
  ((roundHalfEven (q * 10) : ℤ) : ℚ) / 10


/-! ## `src/backend-v1-fastapi/main.py` — sampling and aggregation -/

/-- The `SYSTEM_PROCESSES` set of `src/backend-v1-fastapi/main.py`
(lines 26-33). -/
def SYSTEM_PROCESSES : List String :=
  ["system", "registry", "smss.exe", "csrss.exe", "wininit.exe",
   "services.exe", "lsass.exe", "winlogon.exe", "dwm.exe", "svchost.exe",
   "explorer.exe", "taskeng.exe", "taskhostw.exe", "sihost.exe",
   "runtimebroker.exe", "searchindexer.exe", "searchprotocolhost.exe",
   "searchfilterhost.exe", "wmiprvse.exe", "spoolsv.exe", "conhost.exe",
   "fontdrvhost.exe", "lsaiso.exe", "memory compression",
   "system idle process"]

/-- `is_system_process` (v1 backend, line 50-52): exact membership of the
lowercased name in `SYSTEM_PROCESSES`. -/
def is_system_process (process_name : String) : Bool :=
  SYSTEM_PROCESSES.any (fun s => s.data = lowerStr process_name)


/-- One entry of the per-process dict built by `get_processes_fast`
(v1 backend, lines 101-113). -/
structure ProcRecord where
  pid : Nat
  name : String
  username : String
  cpu_percent : ℚ
  memory_percent : ℚ
  memory_mb : ℚ
  status : String
  num_threads : Nat
  is_protected : Bool
deriving DecidableEq, Repr

/-- `cpu_val = cpu_raw / num_cpus if num_cpus > 0 else 0.0` (v1 backend,
lines 94-99).  `num_cpus` is `psutil.cpu_count()`, which may be `None`:
comparing `None > 0` raises `TypeError`, which the surrounding bare
`except` turns into `cpu_val = 0.0`. -/
def cpuNormalize (numCpus : Option Nat) (cpuRaw : ℚ) : ℚ :=
  match numCpus with
  | none => 0
  | some n => if 0 < n then cpuRaw / (n : ℚ) else 0

/-! ### `get_processes_fast` result (v1 backend, lines 121-135)

The enumeration itself runs inside the external `psutil` library on a
worker thread; the embedding abstracts one call's outcome (worker finished
with a list of records, `asyncio.TimeoutError`, or another exception) and
translates the dictionary the Python function returns on each path.  Every
path returns — the `except` clauses convert both failure modes into a
value, so the caller never sees an exception. -/

/-- A Python value appearing in the response dictionary. -/
inductive PyVal
  | pyList (l : List ProcRecord)
  | pyNat (n : Nat)
  | pyBool (b : Bool)
deriving DecidableEq, Repr

/-- Outcome of awaiting the enumeration worker with `asyncio.wait_for`. -/
inductive SampleOutcome
  | completed (procs : List ProcRecord)
  | timedOut
  | failedErr
deriving DecidableEq, Repr

/-- The dictionary returned by `get_processes_fast` (v1 backend,
lines 124-135), keyed as in the source: `{'processes': ...,
'total_count': ...}` on success, and the same two keys with an empty
list and zero on timeout or error. -/
def getProcessesFast : SampleOutcome → List (String × PyVal)
  | .completed ps => [("processes", .pyList ps), ("total_count", .pyNat ps.length)]
  | .timedOut => [("processes", .pyList []), ("total_count", .pyNat 0)]
  | .failedErr => [("processes", .pyList []), ("total_count", .pyNat 0)]

/-! ### `get_apps_grouped` (v1 backend, lines 137-193) -/

/-- The in-progress application record, as initialised by the
`defaultdict` factory (v1 backend, lines 145-155). -/
structure AppAcc where
  name : String
  pids : List Nat
  cpu_percent : ℚ
  memory_mb : ℚ
  memory_percent : ℚ
  status : String
  process_count : Nat
  exe : String
  is_closeable : Bool
deriving DecidableEq, Repr

/-- The `defaultdict` default value (v1 backend, lines 145-155). -/
def defaultApp : AppAcc :=
  { name := "", pids := [], cpu_percent := 0, memory_mb := 0,
    memory_percent := 0, status := "running", process_count := 0,
    exe := "", is_closeable := true }

/-- The skip condition of the aggregation loop (v1 backend, line 159):
a record is dropped when it names a system process AND its account is one
of `SYSTEM`, `N/A`, `NT AUTHORITY\SYSTEM`. -/
def isExcluded (p : ProcRecord) : Bool :=
  is_system_process p.name &&
    ["SYSTEM", "N/A", "NT AUTHORITY\\SYSTEM"].contains p.username

/-- The grouping key (v1 backend, line 163):
`proc['name'].replace('.exe', '').replace('.com', '')`. -/
def baseName (name : String) : String :=
  pyReplace (pyReplace name ".exe" "") ".com" ""

/-- The status update of the fold (v1 backend, lines 174-175): a
non-`running` member overwrites the accumulated status, a `running`
member leaves it alone. -/
def updStatus (acc procStatus : String) : String :=
  if procStatus = "running" then acc else procStatus

/-- One accumulation step on the entry of the record's group
(v1 backend, lines 166-175). -/
def updApp (k : String) (a : AppAcc) (p : ProcRecord) : AppAcc :=
  { a with
    name := k,
    pids := a.pids ++ [p.pid],
    cpu_percent := a.cpu_percent + p.cpu_percent,
    memory_mb := a.memory_mb + p.memory_mb,
    memory_percent := a.memory_percent + p.memory_percent,
    process_count := a.process_count + 1,
    status := updStatus a.status p.status }

/-- Apply `updApp` at key `k` of the insertion-ordered dictionary,
creating the entry from the `defaultdict` default when absent
(Python `apps_dict[base_name]` plus the mutations). -/
def assocUpd (k : String) (p : ProcRecord) :
    List (String × AppAcc) → List (String × AppAcc)
  | [] => [(k, updApp k defaultApp p)]
  | (k', a) :: rest =>
    if k' = k then (k', updApp k a p) :: rest
    else (k', a) :: assocUpd k p rest

/-- One iteration of the aggregation loop (v1 backend, lines 157-175). -/
def foldStep (acc : List (String × AppAcc)) (p : ProcRecord) :
    List (String × AppAcc) :=
  if isExcluded p then acc else assocUpd (baseName p.name) p acc

/-- The output record built for each group (v1 backend, lines 179-191):
values rounded to one decimal and `is_closeable` set to the literal
`True` of line 190. -/
def appOut (a : AppAcc) : AppAcc :=
  { name := a.name, pids := a.pids,
    cpu_percent := pyRound1 a.cpu_percent,
    memory_mb := pyRound1 a.memory_mb,
    memory_percent := pyRound1 a.memory_percent,
    status := a.status, process_count := a.process_count,
    exe := a.exe, is_closeable := true }

/-- `get_apps_grouped` (v1 backend, lines 137-193) as a function of the
`processes` list produced by `get_processes_fast`: early return on an
empty list, the fold, then the conversion loop keeping groups with
`process_count > 0`. -/
def getAppsGrouped (processes : List ProcRecord) : List AppAcc :=
  if processes.isEmpty then []
  else
    ((processes.foldl foldStep []).filter
      (fun ka => 0 < ka.2.process_count)).map (fun ka => appOut ka.2)

/-- First lookup by key in the insertion-ordered dictionary. -/
def lookupAcc (k : String) : List (String × AppAcc) → Option AppAcc
  | [] => none
  | (k', a) :: rest => if k' = k then some a else lookupAcc k rest

/-! ## `src/backend/main.py` — protection policy and lifecycle control -/

/-- The `PROTECTED_PROCESSES` list of `src/backend/main.py`
(lines 23-27). -/
def PROTECTED_PROCESSES : List String :=
  ["system", "system idle process", "registry", "smss.exe", "csrss.exe",
   "wininit.exe", "services.exe", "lsass.exe", "winlogon.exe", "dwm.exe",
   "svchost.exe", "explorer.exe"]

/-- The `for protected in PROTECTED_PROCESSES: if protected in
process_name_lower: return True` loop (lines 53-55).  Python's `in` on
strings is a substring test. -/
def protectedNameLoop (lower : List Char) : List String → Bool
  | [] => false
  | prot :: rest =>
    if containsSub prot.data lower then true else protectedNameLoop lower rest

/-- `is_protected_process` (`src/backend/main.py`, lines 48-61): a
substring match against `PROTECTED_PROCESSES` on the lowercased name, then
the low-pid rule `pid <= 10`. -/
def is_protected_process (process_name : String) (pid : Nat) : Bool :=
  let lower := lowerStr process_name
  if protectedNameLoop lower PROTECTED_PROCESSES then true
  else if pid ≤ 10 then true
  else false


/-! ### Lifecycle endpoints

The embedding keeps a trace of the stop/pause/continue controls invoked on
the process handle, so "the signal is never delivered" is the trace being
empty.  `psutil` exceptions and FastAPI's `HTTPException` are constructors
of one exception type; each endpoint's `except` clauses are translated in
source order.  `HTTPException` subclasses `Exception` in Python, so an
`HTTPException` raised inside the `try` body is caught by a trailing
`except Exception` clause. -/

/-- The four signal kinds the handle can receive: `proc.terminate()`,
`proc.kill()`, `proc.suspend()`, `proc.resume()`. -/
inductive SignalKind
  | sigterm
  | sigkill
  | sigsuspend
  | sigresume
deriving DecidableEq, Repr

/-- Exceptions that the endpoint bodies can raise. -/
inductive PyExc
  | httpExc (status : Nat) (detail : String)
  | noSuchProcess
  | accessDenied
  | timeoutExpired
deriving DecidableEq, Repr

/-- Python `str(e)` for the exceptions above (starlette's `HTTPException`
prints as `status: detail`). -/
def excStr : PyExc → String
  | .httpExc s d => toString s ++ ": " ++ d
  | .noSuchProcess => "process no longer exists"
  | .accessDenied => "access denied"
  | .timeoutExpired => "timeout"

/-- An HTTP response: the status code FastAPI sends plus its payload
message. -/
structure HttpResponse where
  status : Nat
  detail : String
deriving DecidableEq, Repr

/-- A live process handle as the lifecycle endpoints see it: its resolved
name, what each signal invocation raises (`none` = succeeds), and whether
`proc.wait(timeout=3)` sees the process exit. -/
structure Handle where
  name : String
  signalExc : SignalKind → Option PyExc
  waitExits : Bool

/-- Result of `psutil.Process(pid)`: the process is gone
(`NoSuchProcess`) or a live handle. -/
inductive Lookup
  | missing
  | live (h : Handle)

/-- The `try` body of `kill_process` (`src/backend/main.py`,
lines 303-326): resolve, guard check (raising `HTTPException 403`), signal
according to `force`, then `proc.wait(timeout=3)`. Returns the signals
invoked on the handle together with the body's outcome. -/
def killTryBody (l : Lookup) (pid : Nat) (force : Bool) :
    List SignalKind × Except PyExc HttpResponse :=
  match l with
  | .missing => ([], .error .noSuchProcess)
  | .live h =>
    if is_protected_process h.name pid then
      ([], .error (.httpExc 403
        ("Cannot terminate " ++ h.name ++ ". This is a protected system process.")))
    else
      let kind := if force then SignalKind.sigkill else SignalKind.sigterm
      match h.signalExc kind with
      | some e => ([kind], .error e)
      | none =>
        if h.waitExits then
          ([kind], .ok ⟨200, "terminated successfully"⟩)
        else
          ([kind], .error .timeoutExpired)

/-- The `except` clauses of `kill_process` (lines 327-338), in source
order: `NoSuchProcess` expands to 404, `AccessDenied` to 403,
`TimeoutExpired` to the soft-success response, and every other exception —
including the policy `HTTPException(403)` raised in the body — to a 500
built from `str(e)`. -/
def killHandlers : Except PyExc HttpResponse → HttpResponse
  | .ok resp => resp
  | .error .noSuchProcess => ⟨404, "Process not found"⟩
  | .error .accessDenied => ⟨403, "Access denied. Cannot kill process. Try running as administrator."⟩
  | .error .timeoutExpired => ⟨200, "termination initiated (may take time)"⟩
  | .error e => ⟨500, excStr e⟩

/-- `kill_process` (`src/backend/main.py`, lines 300-338): the body run
under its `except` clauses, paired with the signals delivered. -/
def kill_process (l : Lookup) (pid : Nat) (force : Bool) :
    List SignalKind × HttpResponse :=
  let r := killTryBody l pid force
  (r.1, killHandlers r.2)

/-- The `try` body of `suspend_process` (lines 343-350): resolve and call
`proc.suspend()` — there is no protection check. -/
def suspendTryBody (l : Lookup) : List SignalKind × Except PyExc HttpResponse :=
  match l with
  | .missing => ([], .error .noSuchProcess)
  | .live h =>
    match h.signalExc .sigsuspend with
    | some e => ([.sigsuspend], .error e)
    | none => ([.sigsuspend], .ok ⟨200, "suspended successfully"⟩)

/-- The `except` clauses shared by `suspend_process` (lines 351-356) and
`resume_process` (lines 369-374): `NoSuchProcess` to 404, `AccessDenied`
to 403, anything else to 500. -/
def pauseHandlers : Except PyExc HttpResponse → HttpResponse
  | .ok resp => resp
  | .error .noSuchProcess => ⟨404, "Process not found"⟩
  | .error .accessDenied => ⟨403, "Access denied"⟩
  | .error e => ⟨500, excStr e⟩

/-- `suspend_process` (`src/backend/main.py`, lines 340-356). -/
def suspend_process (l : Lookup) : List SignalKind × HttpResponse :=
  let r := suspendTryBody l
  (r.1, pauseHandlers r.2)

/-- The `try` body of `resume_process` (lines 361-368): resolve and call
`proc.resume()` — there is no protection check. -/
def resumeTryBody (l : Lookup) : List SignalKind × Except PyExc HttpResponse :=
  match l with
  | .missing => ([], .error .noSuchProcess)
  | .live h =>
    match h.signalExc .sigresume with
    | some e => ([.sigresume], .error e)
    | none => ([.sigresume], .ok ⟨200, "resumed successfully"⟩)

/-- `resume_process` (`src/backend/main.py`, lines 358-374). -/
def resume_process (l : Lookup) : List SignalKind × HttpResponse :=
  let r := resumeTryBody l
  (r.1, pauseHandlers r.2)

/-- A handle whose name is in the protected set and on which every signal
succeeds: the concrete scenario for the lifecycle claims. -/
def hOpen : Handle :=
  { name := "explorer.exe", signalExc := fun _ => none, waitExits := true }

/-! ## CpuLoadTracker (spec §4.1 + the in-src normalization) -/

/-- The per-identity baseline held between observations. -/
structure CpuBaseline where
  lastCpu : ℚ
  lastWall : ℚ
deriving DecidableEq, Repr

/-- Modelled from the spec: the cumulative-counter delta tracking that the
external `psutil` library performs inside `Process.cpu_percent` is not
part of this repository's sources; following §4.1, a first observation of
an identity yields `0.0` and records the baseline, and a repeat
observation yields `100 * delta_cpu / delta_wall`, clamped at `0`
minimum. -/
def cpuRawPercent (baseline : Option CpuBaseline) (cpuNow wallNow : ℚ) :
    ℚ × CpuBaseline :=
  match baseline with
  | none => (0, ⟨cpuNow, wallNow⟩)
  | some b =>
    (max 0 (100 * (cpuNow - b.lastCpu) / (wallNow - b.lastWall)),
     ⟨cpuNow, wallNow⟩)

/-- One CPU observation as the sampling pass performs it: the tracker's
raw percentage normalized by the logical core count
(`src/backend-v1-fastapi/main.py`, lines 94-99). -/
def cpuObserve (baseline : Option CpuBaseline) (cpuNow wallNow : ℚ)
    (numCpus : Option Nat) : ℚ :=
  cpuNormalize numCpus (cpuRawPercent baseline cpuNow wallNow).1

/-! ## Concrete inputs used by witnesses and counterexamples -/

/-- A protected (system-named) process running under a real user account. -/
def pexp : ProcRecord :=
  ⟨77, "explorer.exe", "alice", 1, 0, 10, "running", 1, true⟩

/-- The application record `get_apps_grouped` produces for `[pexp]`. -/
def appExp : AppAcc :=
  ⟨"explorer", [77], 1, 10, 0, "running", 1, "", true⟩

/-- Three same-named records whose statuses arrive as
running, stopped, sleeping. -/
def px1 : ProcRecord := ⟨11, "xapp.exe", "alice", 0, 0, 0, "running", 1, false⟩

def px2 : ProcRecord := ⟨12, "xapp.exe", "alice", 0, 0, 0, "stopped", 1, false⟩

def px3 : ProcRecord := ⟨13, "xapp.exe", "alice", 0, 0, 0, "sleeping", 1, false⟩

/-- The application record `get_apps_grouped` produces for
`[px1, px2, px3]`. -/
def appX : AppAcc :=
  ⟨"xapp", [11, 12, 13], 0, 0, 0, "sleeping", 3, "", true⟩

/-! ## Supporting lemmas -/

theorem listPre_iff (pat l : List Char) :
    listPre pat l = true ↔ ∃ t, l = pat ++ t := by
  induction pat generalizing l with
  | nil => simp [listPre]
  | cons p ps ih =>
    cases l with
    | nil => simp [listPre]
    | cons c cs =>
      simp only [listPre, Bool.and_eq_true, decide_eq_true_eq, ih,
        List.cons_append, List.cons.injEq]
      constructor
      · rintro ⟨rfl, t, rfl⟩; exact ⟨t, rfl, rfl⟩
      · rintro ⟨t, rfl, rfl⟩; exact ⟨rfl, t, rfl⟩

theorem containsSub_iff (pat l : List Char) :
    containsSub pat l = true ↔ ∃ pre post, l = pre ++ pat ++ post := by
  induction l with
  | nil =>
    simp only [containsSub, listPre_iff]
    constructor
    · rintro ⟨t, ht⟩; exact ⟨[], t, by simpa using ht⟩
    · rintro ⟨pre, post, h⟩
      have h' : pre = [] ∧ pat = [] ∧ post = [] := by
        simpa [List.append_eq_nil] using h.symm
      exact ⟨[], by simp [h'.2.1]⟩
  | cons c cs ih =>
    simp only [containsSub, Bool.or_eq_true, listPre_iff, ih]
    constructor
    · rintro (⟨t, ht⟩ | ⟨pre, post, h⟩)
      · exact ⟨[], t, by simpa using ht⟩
      · exact ⟨c :: pre, post, by simp [h]⟩
    · rintro ⟨pre, post, h⟩
      cases pre with
      | nil => exact Or.inl ⟨post, by simpa using h⟩
      | cons p ps =>
        right
        simp only [List.cons_append, List.cons.injEq] at h
        exact ⟨ps, post, h.2⟩

theorem protectedNameLoop_iff (lower : List Char) (l : List String) :
    protectedNameLoop lower l = true ↔
      ∃ prot ∈ l, containsSub prot.data lower = true := by
  induction l with
  | nil => simp [protectedNameLoop]
  | cons prot rest ih =>
    constructor
    · intro h
      by_cases hc : containsSub prot.data lower = true
      · exact ⟨prot, List.mem_cons_self _ _, hc⟩
      · simp only [protectedNameLoop, if_neg hc] at h
        obtain ⟨q, hq, hqc⟩ := ih.mp h
        exact ⟨q, List.mem_cons_of_mem _ hq, hqc⟩
    · rintro ⟨q, hq, hqc⟩
      rcases List.mem_cons.mp hq with rfl | hq'
      · simp only [protectedNameLoop, if_pos hqc]
      · by_cases hc : containsSub prot.data lower = true
        · simp only [protectedNameLoop, if_pos hc]
        · simp only [protectedNameLoop, if_neg hc]
          exact ih.mpr ⟨q, hq', hqc⟩

theorem lookupAcc_assocUpd_self (k : String) (p : ProcRecord)
    (acc : List (String × AppAcc)) :
    ∃ a, lookupAcc k (assocUpd k p acc) = some a ∧
      p.pid ∈ a.pids ∧ 0 < a.process_count := by
  induction acc with
  | nil =>
    refine ⟨updApp k defaultApp p, ?_, ?_, ?_⟩
    · simp [assocUpd, lookupAcc]
    · simp [updApp, defaultApp]
    · simp [updApp, defaultApp]
  | cons ka rest ih =>
    obtain ⟨k', a⟩ := ka
    by_cases hk : k' = k
    · subst hk
      exact ⟨updApp k' a p, by simp [assocUpd, lookupAcc],
        by simp [updApp], by simp [updApp]⟩
    · obtain ⟨a', h1, h2, h3⟩ := ih
      exact ⟨a', by simp [assocUpd, lookupAcc, hk, h1], h2, h3⟩

theorem lookupAcc_assocUpd_preserve (k k2 : String) (p : ProcRecord)
    (acc : List (String × AppAcc)) (a : AppAcc) (pid : Nat)
    (h : lookupAcc k acc = some a) (hpid : pid ∈ a.pids)
    (hc : 0 < a.process_count) :
    ∃ a', lookupAcc k (assocUpd k2 p acc) = some a' ∧
      pid ∈ a'.pids ∧ 0 < a'.process_count := by
  induction acc with
  | nil => simp [lookupAcc] at h
  | cons ka rest ih =>
    obtain ⟨k', b⟩ := ka
    by_cases hk2 : k' = k2
    · subst hk2
      by_cases hk : k' = k
      · subst hk
        obtain rfl : b = a := by simpa [lookupAcc] using h
        refine ⟨updApp k' b p, ?_, ?_, ?_⟩
        · simp [assocUpd, lookupAcc]
        · simp [updApp, List.mem_append, hpid]
        · simp [updApp]
      · simp only [lookupAcc, if_neg hk] at h
        exact ⟨a, by simp [assocUpd, lookupAcc, hk, h], hpid, hc⟩
    · by_cases hk : k' = k
      · subst hk
        obtain rfl : b = a := by simpa [lookupAcc] using h
        exact ⟨b, by simp [assocUpd, lookupAcc, hk2], hpid, hc⟩
      · simp only [lookupAcc, if_neg hk] at h
        obtain ⟨a', h1, h2, h3⟩ := ih h
        exact ⟨a', by simp [assocUpd, lookupAcc, hk2, hk, h1], h2, h3⟩

theorem lookupAcc_foldStep_preserve (k : String) (q : ProcRecord)
    (acc : List (String × AppAcc)) (a : AppAcc) (pid : Nat)
    (h : lookupAcc k acc = some a) (hpid : pid ∈ a.pids)
    (hc : 0 < a.process_count) :
    ∃ a', lookupAcc k (foldStep acc q) = some a' ∧
      pid ∈ a'.pids ∧ 0 < a'.process_count := by
  by_cases he : isExcluded q = true
  · exact ⟨a, by simp [foldStep, he, h], hpid, hc⟩
  · simp only [foldStep, he, if_false, Bool.false_eq_true]
    exact lookupAcc_assocUpd_preserve k (baseName q.name) q acc a pid h hpid hc

theorem lookupAcc_foldl_preserve (ps : List ProcRecord) (k : String)
    (acc : List (String × AppAcc)) (a : AppAcc) (pid : Nat)
    (h : lookupAcc k acc = some a) (hpid : pid ∈ a.pids)
    (hc : 0 < a.process_count) :
    ∃ a', lookupAcc k (ps.foldl foldStep acc) = some a' ∧
      pid ∈ a'.pids ∧ 0 < a'.process_count := by
  induction ps generalizing acc a with
  | nil => exact ⟨a, h, hpid, hc⟩
  | cons q rest ih =>
    rw [List.foldl_cons]
    obtain ⟨a', h1, h2, h3⟩ := lookupAcc_foldStep_preserve k q acc a pid h hpid hc
    exact ih (foldStep acc q) a' h1 h2 h3

theorem lookupAcc_foldl_of_mem (ps : List ProcRecord)
    (acc : List (String × AppAcc)) (p : ProcRecord) (hmem : p ∈ ps)
    (hex : isExcluded p = false) :
    ∃ a, lookupAcc (baseName p.name) (ps.foldl foldStep acc) = some a ∧
      p.pid ∈ a.pids ∧ 0 < a.process_count := by
  induction ps generalizing acc with
  | nil => cases hmem
  | cons q rest ih =>
    rw [List.foldl_cons]
    rcases List.mem_cons.mp hmem with rfl | hmem'
    · have hstep : foldStep acc p = assocUpd (baseName p.name) p acc := by
        simp [foldStep, hex]
      obtain ⟨a, h1, h2, h3⟩ := lookupAcc_assocUpd_self (baseName p.name) p acc
      exact lookupAcc_foldl_preserve rest (baseName p.name) (foldStep acc p) a
        p.pid (hstep ▸ h1) h2 h3
    · exact ih (foldStep acc q) hmem'

theorem lookupAcc_mem (k : String) (acc : List (String × AppAcc)) (a : AppAcc)
    (h : lookupAcc k acc = some a) : (k, a) ∈ acc := by
  induction acc with
  | nil => simp [lookupAcc] at h
  | cons ka rest ih =>
    obtain ⟨k', b⟩ := ka
    by_cases hk : k' = k
    · subst hk
      obtain rfl : b = a := by simpa [lookupAcc] using h
      exact List.mem_cons_self _ _
    · simp only [lookupAcc, if_neg hk] at h
      exact List.mem_cons_of_mem _ (ih h)

/-! ## Claim theorems -/

/-- C3 (amended): `is_protected_process name pid` is true iff some entry
of `PROTECTED_PROCESSES` occurs as a SUBSTRING of the lowercased name
(Python's `in` on strings), or `pid ≤ 10`; the three concrete examples of
the spec hold as stated. -/
theorem is_protected_process_characterization :
    (∀ (name : String) (pid : Nat),
      is_protected_process name pid = true ↔
        ((∃ prot ∈ PROTECTED_PROCESSES, ∃ pre post,
            lowerStr name = pre ++ prot.data ++ post) ∨ pid ≤ 10)) ∧
    is_protected_process "explorer.exe" 4000 = true ∧
    is_protected_process "myapp.exe" 5 = true ∧
    is_protected_process "myapp.exe" 4000 = false := by
  refine ⟨fun name pid => ?_, by decide, by decide, by decide⟩
  have hloop := protectedNameLoop_iff (lowerStr name) PROTECTED_PROCESSES
  constructor
  · intro h
    simp only [is_protected_process] at h
    by_cases hl : protectedNameLoop (lowerStr name) PROTECTED_PROCESSES = true
    · obtain ⟨prot, hmem, hsub⟩ := hloop.mp hl
      exact Or.inl ⟨prot, hmem, (containsSub_iff prot.data (lowerStr name)).mp hsub⟩
    · simp only [hl, if_false, Bool.false_eq_true] at h
      by_cases hp : pid ≤ 10
      · exact Or.inr hp
      · simp [hp] at h
  · rintro (⟨prot, hmem, hdec⟩ | hp)
    · have hsub : containsSub prot.data (lowerStr name) = true :=
        (containsSub_iff prot.data (lowerStr name)).mpr hdec
      simp [is_protected_process, hloop.mpr ⟨prot, hmem, hsub⟩]
    · simp only [is_protected_process]
      by_cases hl : protectedNameLoop (lowerStr name) PROTECTED_PROCESSES = true
      · simp [hl]
      · simp [hl, hp]

/-- C3 counterexample: `my_registry_tool.exe` is reported protected at
pid 4000 although its lowercase name is not a member of
`PROTECTED_PROCESSES` and its pid is outside the low range — the name
merely CONTAINS `registry`, so exact-membership "if and only if" fails. -/
theorem protected_substring_counterexample :
    is_protected_process "my_registry_tool.exe" 4000 = true ∧
    PROTECTED_PROCESSES.contains "my_registry_tool.exe" = false ∧
    ¬(4000 ≤ 10) := by
  refine ⟨by decide, by decide, by decide⟩

/-- C4 counterexample: the value `get_processes_fast` returns on timeout
has no `degraded` key at all — in particular it does not map `degraded`
to `true`; it only carries `processes` (empty) and `total_count`. -/
theorem sample_timeout_no_degraded_flag :
    List.lookup "degraded" (getProcessesFast SampleOutcome.timedOut) = none ∧
    List.lookup "processes" (getProcessesFast SampleOutcome.timedOut) =
      some (PyVal.pyList []) := by
  refine ⟨by decide, by decide⟩

/-- C4 (amended): when the enumeration worker times out (and likewise on
any other worker failure), `get_processes_fast` returns the dictionary
`processes = [], total_count = 0` — it does not raise, and it carries no
`degraded` flag. -/
theorem sample_timeout_empty_result :
    getProcessesFast SampleOutcome.timedOut =
      [("processes", PyVal.pyList []), ("total_count", PyVal.pyNat 0)] ∧
    getProcessesFast SampleOutcome.failedErr =
      [("processes", PyVal.pyList []), ("total_count", PyVal.pyNat 0)] ∧
    List.lookup "degraded" (getProcessesFast SampleOutcome.timedOut) = none := by
  refine ⟨rfl, rfl, by decide⟩

/-- C10: with a zero or unavailable logical core count the guarded
normalization `cpu_raw / num_cpus if num_cpus > 0 else 0.0` yields `0.0`
instead of dividing by zero (the `None` comparison's `TypeError` lands in
the bare `except`, which also yields `0.0`), and the rounded `cpu_percent`
stored in the record is `0.0` as well. -/
theorem cpu_normalize_zero_cores (raw : ℚ) :
    cpuNormalize none raw = 0 ∧
    cpuNormalize (some 0) raw = 0 ∧
    pyRound1 (cpuNormalize none raw) = 0 ∧
    pyRound1 (cpuNormalize (some 0) raw) = 0 := by
  have h0 : cpuNormalize none raw = 0 := rfl
  have h1 : cpuNormalize (some 0) raw = 0 := by simp [cpuNormalize]
  refine ⟨h0, h1, ?_, ?_⟩
  · rw [h0]; norm_num [pyRound1, roundHalfEven]
  · rw [h1]; norm_num [pyRound1, roundHalfEven]

/-- Evaluation of the aggregation on the single protected-but-user-owned
record `pexp`. -/
theorem getAppsGrouped_pexp_eval : getAppsGrouped [pexp] = [appExp] := by
  simp +decide only [getAppsGrouped, pexp, appExp, List.isEmpty, List.foldl,
    foldStep, isExcluded, is_system_process, baseName, assocUpd, updApp,
    updStatus, defaultApp, appOut, List.filter, List.map, pyReplace, lowerStr]
  norm_num [pyRound1, roundHalfEven, AppAcc.mk.injEq]
  decide

/-- C7: on the three spec records the aggregation yields exactly the two
expected application records, with chrome's members and sums combined and
its status taken from the stopped member. -/
theorem aggregate_three_records :
    getAppsGrouped
      [⟨101, "chrome.exe", "alice", 10, 0, 100, "running", 1, false⟩,
       ⟨102, "chrome.exe", "alice", 5, 0, 50, "stopped", 1, false⟩,
       ⟨103, "notepad.exe", "alice", 2, 0, 20, "running", 1, false⟩] =
    [⟨"chrome", [101, 102], 15, 150, 0, "stopped", 2, "", true⟩,
     ⟨"notepad", [103], 2, 20, 0, "running", 1, "", true⟩] := by
  simp +decide only [getAppsGrouped, List.isEmpty, List.foldl, foldStep,
    isExcluded, is_system_process, baseName, assocUpd, updApp, updStatus,
    defaultApp, appOut, List.filter, List.map, pyReplace, lowerStr]
  norm_num [pyRound1, roundHalfEven, AppAcc.mk.injEq]
  decide

/-- Evaluation of the aggregation on three same-named records with
statuses running, stopped, sleeping (in that order). -/
theorem getAppsGrouped_px_eval : getAppsGrouped [px1, px2, px3] = [appX] := by
  simp +decide only [getAppsGrouped, px1, px2, px3, appX, List.isEmpty,
    List.foldl, foldStep, isExcluded, is_system_process, baseName, assocUpd,
    updApp, updStatus, defaultApp, appOut, List.filter, List.map, pyReplace,
    lowerStr]
  norm_num [pyRound1, roundHalfEven, AppAcc.mk.injEq]
  decide

/-- C8 counterexample: folding members with statuses running, stopped,
sleeping produces the status `sleeping` — the LAST non-running status —
so the first non-running status (`stopped`) does not win. -/
theorem status_last_nonrunning_counterexample :
    getAppsGrouped [px1, px2, px3] = [appX] ∧
    appX.status = "sleeping" ∧ appX.status ≠ "stopped" :=
  ⟨getAppsGrouped_px_eval, rfl, by decide⟩

/-- C8 (amended): in the aggregation fold the status becomes non-`running`
as soon as a non-running member is folded in and can never be overwritten
back to `running`; however each LATER non-running member replaces the
stored status, so the last non-running status wins. -/
theorem status_fold_never_back_to_running (k : String) (a : AppAcc)
    (p : ProcRecord) :
    (a.status ≠ "running" → (updApp k a p).status ≠ "running") ∧
    (p.status ≠ "running" → (updApp k a p).status = p.status) := by
  constructor
  · intro ha
    by_cases hp : p.status = "running"
    · simpa [updApp, updStatus, hp] using ha
    · simp [updApp, updStatus, hp]
  · intro hp
    simp [updApp, updStatus, hp]

/-- C8 witness: instantiating the amended fold-status property on a
`stopped` accumulator and a `sleeping` member. -/
theorem status_fold_witness :
    (updApp "xapp" ⟨"xapp", [11], 0, 0, 0, "stopped", 1, "", true⟩ px3).status
      = "sleeping" ∧
    (updApp "xapp" ⟨"xapp", [11], 0, 0, 0, "stopped", 1, "", true⟩ px3).status
      ≠ "running" := by
  constructor
  · have h := (status_fold_never_back_to_running "xapp"
      ⟨"xapp", [11], 0, 0, 0, "stopped", 1, "", true⟩ px3).2 (by decide)
    simpa [px3] using h
  · exact (status_fold_never_back_to_running "xapp"
      ⟨"xapp", [11], 0, 0, 0, "stopped", 1, "", true⟩ px3).1 (by decide)

/-- C9 counterexample: `pexp` is protected (its name is a system name)
and not filtered out (real user account), yet the application record built
from it has `is_closeable = true` — line 190 of the v1 backend hard-codes
`True`, so "protected member implies not closeable" fails. -/
theorem closeable_protected_counterexample :
    pexp.is_protected = true ∧
    is_system_process pexp.name = true ∧
    getAppsGrouped [pexp] = [appExp] ∧
    appExp.is_closeable = true :=
  ⟨by decide, by decide, getAppsGrouped_pexp_eval, by decide⟩

/-- C9 (amended): every application record produced by `get_apps_grouped`
has `is_closeable = true`, regardless of the protection of its members. -/
theorem closeable_always_true (ps : List ProcRecord) (a : AppAcc)
    (h : a ∈ getAppsGrouped ps) : a.is_closeable = true := by
  simp only [getAppsGrouped] at h
  split at h
  · cases h
  · obtain ⟨ka, hka, rfl⟩ := List.mem_map.mp h
    rfl

/-- C9 witness: the record aggregated from the protected member `pexp`
has `is_closeable = true`. -/
theorem closeable_always_true_witness : appExp.is_closeable = true :=
  closeable_always_true [pexp] appExp
    (getAppsGrouped_pexp_eval ▸ List.mem_singleton.mpr rfl)

/-- C1: for a live handle with a protected name, `kill_process` delivers
no stop signal at all, but the response is HTTP 500, not 403: the policy
`HTTPException(403)` raised inside the `try` body is itself an
`Exception`, so the trailing `except Exception` clause catches it and
re-raises it as a 500. -/
theorem kill_protected_no_signal_http500 (h : Handle) (pid : Nat)
    (force : Bool) (hp : is_protected_process h.name pid = true) :
    (kill_process (Lookup.live h) pid force).1 = [] ∧
    (kill_process (Lookup.live h) pid force).2.status = 500 := by
  simp [kill_process, killTryBody, hp, killHandlers]

/-- C1 witness: killing pid 100 whose handle resolves to the protected
name `explorer.exe` sends no signal and answers 500. -/
theorem kill_protected_witness :
    (kill_process (Lookup.live hOpen) 100 false).1 = [] ∧
    (kill_process (Lookup.live hOpen) 100 false).2.status = 500 :=
  kill_protected_no_signal_http500 hOpen 100 false (by decide)

/-- C2 counterexample: pid 4 resolves to the protected name
`explorer.exe`, yet `suspend_process` and `resume_process` deliver their
pause/continue controls to the handle and answer 200 — no `Forbidden`
policy veto happens before (or instead of) the OS-level control. -/
theorem suspend_protected_counterexample :
    is_protected_process hOpen.name 4 = true ∧
    (suspend_process (Lookup.live hOpen)).1 = [SignalKind.sigsuspend] ∧
    (suspend_process (Lookup.live hOpen)).2.status = 200 ∧
    (resume_process (Lookup.live hOpen)).1 = [SignalKind.sigresume] ∧
    (resume_process (Lookup.live hOpen)).2.status = 200 :=
  ⟨by decide, by decide, by decide, by decide, by decide⟩

/-- C2 (amended): `suspend_process` and `resume_process` never consult
`is_protected_process`: on every live handle — protected or not — they
invoke the pause/continue control, and when the OS call succeeds they
answer 200; their only failures are `NotFound` (404) and OS
`AccessDenied` (403). -/
theorem suspend_resume_no_guard (h : Handle) (pid : Nat)
    (hp : is_protected_process h.name pid = true)
    (hs : h.signalExc SignalKind.sigsuspend = none)
    (hr : h.signalExc SignalKind.sigresume = none) :
    (suspend_process (Lookup.live h)).1 = [SignalKind.sigsuspend] ∧
    (suspend_process (Lookup.live h)).2.status = 200 ∧
    (resume_process (Lookup.live h)).1 = [SignalKind.sigresume] ∧
    (resume_process (Lookup.live h)).2.status = 200 := by
  simp [suspend_process, suspendTryBody, resume_process, resumeTryBody,
    hs, hr, pauseHandlers]

/-- C2 witness: the amended no-guard behaviour applied to the protected
handle `hOpen` at pid 4. -/
theorem suspend_resume_no_guard_witness :
    (suspend_process (Lookup.live hOpen)).2.status = 200 ∧
    (resume_process (Lookup.live hOpen)).2.status = 200 := by
  have h := suspend_resume_no_guard hOpen 4 (by decide) rfl rfl
  exact ⟨h.2.1, h.2.2.2⟩

/-- C5: a first-ever observation of an identity yields exactly `0.0`; a
repeat observation with a non-decreasing cumulative counter and a positive
wall-clock delta yields `100 * delta_cpu / delta_wall / cores`; and the
result is never negative. -/
theorem cpu_observe_spec (b : CpuBaseline) (c0 w0 cpuNow wallNow : ℚ)
    (cores : Nat) (hc : 0 < cores) (hm : b.lastCpu ≤ cpuNow)
    (hw : b.lastWall < wallNow) :
    cpuObserve none c0 w0 (some cores) = 0 ∧
    cpuObserve (some b) cpuNow wallNow (some cores) =
      100 * (cpuNow - b.lastCpu) / (wallNow - b.lastWall) / (cores : ℚ) ∧
    0 ≤ cpuObserve (some b) cpuNow wallNow (some cores) := by
  have hcq : (0 : ℚ) < (cores : ℚ) := by exact_mod_cast hc
  have hdc : (0 : ℚ) ≤ cpuNow - b.lastCpu := sub_nonneg.mpr hm
  have hdw : (0 : ℚ) < wallNow - b.lastWall := sub_pos.mpr hw
  have hraw : (0 : ℚ) ≤ 100 * (cpuNow - b.lastCpu) / (wallNow - b.lastWall) :=
    div_nonneg (mul_nonneg (by norm_num) hdc) hdw.le
  refine ⟨?_, ?_, ?_⟩
  · simp [cpuObserve, cpuRawPercent, cpuNormalize, hc]
  · simp only [cpuObserve, cpuRawPercent, cpuNormalize, hc, if_pos]
    rw [max_eq_right hraw]
  · simp only [cpuObserve, cpuRawPercent, cpuNormalize, hc, if_pos]
    exact div_nonneg (le_max_left _ _) hcq.le

/-- C5 witness: from baseline `(0, 0)`, observing cumulative time 2 at
wall-clock 4 on 2 cores gives `100 * 2 / 4 / 2 = 25`, and a first
observation gives 0. -/
theorem cpu_observe_spec_witness :
    cpuObserve none 0 0 (some 2) = 0 ∧
    cpuObserve (some ⟨0, 0⟩) 2 4 (some 2) = 25 := by
  have h := cpu_observe_spec ⟨0, 0⟩ 0 0 2 4 2 (by norm_num)
    (show (0 : ℚ) ≤ 2 by norm_num) (show (0 : ℚ) < 4 by norm_num)
  refine ⟨h.1, ?_⟩
  rw [h.2.1]
  norm_num

/-- C6: a record is dropped by the aggregation iff it names a
system/protected process AND its owning account is one of the
system-account sentinels; dropped records leave the fold state untouched,
and every record that survives the filter contributes its pid to some
produced application record (in particular a protected process under a
real user account is still grouped). -/
theorem apps_exclusion_filter (ps : List ProcRecord) (p : ProcRecord)
    (hmem : p ∈ ps) :
    (isExcluded p = true ↔
      (is_system_process p.name = true ∧
        p.username ∈ (["SYSTEM", "N/A", "NT AUTHORITY\\SYSTEM"] : List String))) ∧
    (isExcluded p = true → ∀ acc, foldStep acc p = acc) ∧
    (isExcluded p = false → ∃ a ∈ getAppsGrouped ps, p.pid ∈ a.pids) := by
  refine ⟨?_, ?_, ?_⟩
  · simp [isExcluded]
  · intro hex acc
    simp [foldStep, hex]
  · intro hex
    obtain ⟨a, h1, h2, h3⟩ := lookupAcc_foldl_of_mem ps [] p hmem hex
    have hmem2 := lookupAcc_mem _ _ _ h1
    have hne : ps.isEmpty = false := by
      cases ps
      · cases hmem
      · rfl
    refine ⟨appOut a, ?_, ?_⟩
    · simp only [getAppsGrouped, hne, Bool.false_eq_true, if_false]
      exact List.mem_map_of_mem _ (List.mem_filter.mpr ⟨hmem2, by simpa using h3⟩)
    · simpa [appOut] using h2

/-- C6 witness: the protected record `pexp` owned by the real account
`alice` passes the filter and its pid 77 appears in a produced
application record. -/
theorem apps_exclusion_filter_witness :
    ∃ a ∈ getAppsGrouped [pexp], pexp.pid ∈ a.pids :=
  (apps_exclusion_filter [pexp] pexp (List.mem_singleton.mpr rfl)).2.2 (by decide)
